import Mathlib

/-!
Verification of the voxel world model implemented in `src/main.py`.

The embedding below translates the model layer of the program into Lean:

* continuous coordinates are rationals (every coordinate appearing in the
  verified scenarios is a dyadic rational, which IEEE doubles represent
  exactly, so rational arithmetic agrees with the Python float arithmetic
  on these inputs);
* a block `Position` is a triple of integers, a `Sector` likewise;
* a `Material` is the per-face texture-coordinate list built by
  `tex_coords` in the source;
* the `Model` object's mutable dictionaries become function-valued fields
  (`world`, `shown` map positions to an optional material; the rendering
  dictionary `_shown` is tracked by its domain as the `rendered`
  predicate; `sectors` maps a sector to its bucket list, with a missing
  dictionary key identified with the empty bucket, matching the
  `sectors.get(sector, [])` reads in the source);
* the function queue holds data-carrying entries: the source only ever
  enqueues `_show_block(position, texture)` and `_hide_block(position)`
  thunks.

Where the Python code would raise (`show_block` on a position missing
from `world` raises `KeyError` before mutating anything; removing a
position from a bucket that does not hold it raises `ValueError`), the
embedding leaves the state unchanged at that point; every theorem below
only exercises states in which those paths are unreachable, matching the
source's behavior exactly on the states considered.
-/

namespace Voxel

abbrev Pos : Type := ℤ × ℤ × ℤ

abbrev Sector : Type := ℤ × ℤ × ℤ

abbrev Material : Type := List ℚ

/-- Source constant `SECTOR_SIZE = 16`. -/
def SECTOR_SIZE : ℤ := 16

/-- Source constant `PLAYER_HEIGHT = 2`. -/
def PLAYER_HEIGHT : ℕ := 2

/-- Source `tex_coord(x, y, n=4)`: bounding vertices of one texture cell. -/
def tex_coord (x y : ℚ) (n : ℚ := 4) : List ℚ :=
  let m := 1 / n
  let dx := x * m
  let dy := y * m
  [dx, dy, dx + m, dy, dx + m, dy + m, dx, dy + m]

/-- Source `tex_coords(top, bottom, side)`: texture squares for a block
(the side square is repeated for the four lateral faces). -/
def tex_coords (top bottom side : ℚ × ℚ) : Material :=
  let t := tex_coord top.1 top.2
  let b := tex_coord bottom.1 bottom.2
  let s := tex_coord side.1 side.2
  t ++ b ++ (s ++ s ++ s ++ s)

def GRASS : Material := tex_coords (1, 0) (0, 1) (0, 0)

def SAND : Material := tex_coords (1, 1) (1, 1) (1, 1)

def BRICK : Material := tex_coords (2, 0) (2, 0) (2, 0)

def STONE : Material := tex_coords (2, 1) (2, 1) (2, 1)

def WOOD : Material := tex_coords (3, 1) (3, 1) (3, 1)

def LEAF : Material := tex_coords (3, 0) (3, 0) (3, 0)

def WATER : Material := tex_coords (0, 2) (0, 2) (0, 2)

/-- Source `FACES`: the six axis-aligned unit offsets, in source order. -/
def FACES : List Pos :=
  [(0, 1, 0), (0, -1, 0), (-1, 0, 0), (1, 0, 0), (0, 0, 1), (0, 0, -1)]

/-- Python 3 `round` on an exactly-represented value: round to the nearest
integer, breaking exact halves toward the even integer. -/
def pyRound (q : ℚ) : ℤ :=
  let f := ⌊q⌋
  let r := q - (f : ℚ)
  if r < 1 / 2 then f
  else if 1 / 2 < r then f + 1
  else if f % 2 = 0 then f else f + 1

/-- Source `normalize(position)`: the block containing a continuous
position, obtained by rounding each coordinate with Python `round`. -/
def normalize (position : ℚ × ℚ × ℚ) : Pos :=
  (pyRound position.1, pyRound position.2.1, pyRound position.2.2)

/-- Source `sectorize(position)`: floor-divide the normalized x and z by
`SECTOR_SIZE`; the returned y component is fixed at 0 (the y quotient is
computed and then discarded by the source). -/
def sectorize (position : ℚ × ℚ × ℚ) : Sector :=
  let n := normalize position
  (n.1.fdiv SECTOR_SIZE, 0, n.2.2.fdiv SECTOR_SIZE)

/-- View an integer block position as a continuous position (Python makes
no such distinction; integer tuples flow directly into `sectorize`). -/
def posQ (p : Pos) : ℚ × ℚ × ℚ := ((p.1 : ℚ), (p.2.1 : ℚ), (p.2.2 : ℚ))

/-- Specialization of `sectorize` to an integer block position, the only
way the model layer ever calls it. -/
def sectorizeP (p : Pos) : Sector := sectorize (posQ p)

/-- Componentwise addition `(x + dx, y + dy, z + dz)` of a face offset. -/
def padd (p f : Pos) : Pos := (p.1 + f.1, p.2.1 + f.2.1, p.2.2 + f.2.2)

/-- Componentwise negation of a face offset. -/
def pneg (f : Pos) : Pos := (-f.1, -f.2.1, -f.2.2)

/-- Pointwise update of a function-valued dictionary. -/
def fupd {α : Type} (g : Pos → α) (p : Pos) (v : α) : Pos → α :=
  fun q => if q = p then v else g q

/-- Entries of the model's function queue: the source enqueues only
`_show_block(position, texture)` and `_hide_block(position)` calls. -/
inductive QEntry where
  | showEntry (position : Pos) (texture : Material)
  | hideEntry (position : Pos)
deriving DecidableEq

/-- State of the `Model` object (plus the collision-irrelevant rendering
handles abstracted to their domain). -/
structure Model where
  world : Pos → Option Material
  shown : Pos → Option Material
  rendered : Pos → Bool
  sectors : Sector → List Pos
  queue : List QEntry

/-- Source `Model.exposed(position)`: some face-adjacent cell is absent
from the world. -/
def exposedB (w : Pos → Option Material) (p : Pos) : Bool :=
  FACES.any fun f => (w (padd p f)).isNone

/-- Source `Model._show_block`: hand the block to the rendering backend;
the model-visible effect is that the position acquires a live mesh. -/
def priv_show_block (M : Model) (position : Pos) (texture : Material) : Model :=
  { M with rendered := fupd M.rendered position ((fun _ => true) texture) }

/-- Source `Model._hide_block`: delete the mesh handle if one is live. -/
def priv_hide_block (M : Model) (position : Pos) : Model :=
  { M with rendered := fupd M.rendered position false }

/-- Source `Model.show_block(position, immediate=True)`: record the block
in `shown` and either build its mesh now or enqueue the build.  A
position absent from `world` raises `KeyError` in Python before any
mutation; the embedding returns the state unchanged there. -/
def show_block (M : Model) (position : Pos) (immediate : Bool := true) : Model :=
  match M.world position with
  | none => M
  | some texture =>
    let M1 : Model := { M with shown := fupd M.shown position (some texture) }
    if immediate then priv_show_block M1 position texture
    else { M1 with queue := M1.queue ++ [QEntry.showEntry position texture] }

/-- Source `Model.hide_block(position, immediate=True)`: drop the block
from `shown` if present and either delete its mesh now or enqueue the
deletion. -/
def hide_block (M : Model) (position : Pos) (immediate : Bool := true) : Model :=
  let M1 : Model :=
    if (M.shown position).isSome then { M with shown := fupd M.shown position none } else M
  if immediate then priv_hide_block M1 position
  else { M1 with queue := M1.queue ++ [QEntry.hideEntry position] }

/-- Body of the loop in `Model.check_neighbors`, for one neighbor cell:
skip cells absent from the world; show a newly exposed neighbor, hide a
newly occluded one (both with the source's default `immediate=True`). -/
def visStep (M : Model) (key : Pos) : Model :=
  match M.world key with
  | none => M
  | some _ =>
    if exposedB M.world key then
      if (M.shown key).isNone then show_block M key true else M
    else
      if (M.shown key).isSome then hide_block M key true else M

/-- Source `Model.check_neighbors(position)`: run the visibility update
over the six face-adjacent cells, in `FACES` order. -/
def check_neighbors (M : Model) (position : Pos) : Model :=
  FACES.foldl (fun acc f => visStep acc (padd position f)) M

/-- Source `Model.remove_block(position, immediate=True)`: if present,
delete from `world` and from the sector bucket (Python removes the first
occurrence from the bucket list), then, when immediate, hide the block if
it was shown and update the neighbors' visibility. -/
def remove_block (M : Model) (position : Pos) (immediate : Bool := true) : Model :=
  match M.world position with
  | none => M
  | some _ =>
    let M1 : Model := { M with
      world := fupd M.world position none,
      sectors :=
        fupd M.sectors (sectorizeP position)
          ((M.sectors (sectorizeP position)).erase position) }
    if immediate then
      let M2 := if (M1.shown position).isSome then hide_block M1 position true else M1
      check_neighbors M2 position
    else M1

/-- Source `Model.add_block(position, texture, immediate=True)`: an
occupied position is removed first; the block is inserted into `world`
and appended to its sector bucket; when immediate, it is shown if exposed
and the neighbors are re-checked; otherwise a `_show_block` call is
enqueued. -/
def add_block (M : Model) (position : Pos) (texture : Material) (immediate : Bool := true) :
    Model :=
  let M0 := if (M.world position).isSome then remove_block M position immediate else M
  let M1 : Model := { M0 with
    world := fupd M0.world position (some texture),
    sectors :=
      fupd M0.sectors (sectorizeP position) (M0.sectors (sectorizeP position) ++ [position]) }
  if immediate then
    let M2 := if exposedB M1.world position then show_block M1 position true else M1
    check_neighbors M2 position
  else
    { M1 with queue := M1.queue ++ [QEntry.showEntry position texture] }

/-- Source `Model.show_sector(sector)`: enqueue a show for every bucket
position that is exposed and not already shown. -/
def show_sector (M : Model) (sector : Sector) : Model :=
  (M.sectors sector).foldl
    (fun acc position =>
      if (acc.shown position).isNone && exposedB acc.world position then
        show_block acc position false
      else acc)
    M

/-- Source `Model.hide_sector(sector)`: enqueue a hide for every bucket
position currently shown. -/
def hide_sector (M : Model) (sector : Sector) : Model :=
  (M.sectors sector).foldl
    (fun acc position =>
      if (acc.shown position).isSome then hide_block acc position false else acc)
    M

/-- Offsets generated by the loops of `Model.change_sectors`: `dx` and
`dz` range over `-pad .. pad` with `pad = 4`, `dy` is fixed at 0, and
offsets with squared norm above `(pad + 1) ** 2` are skipped. -/
def diskOffsets : List Pos :=
  (((List.range 9).flatMap fun (i : ℕ) =>
      (List.range 9).map fun (k : ℕ) => (((i : ℤ) - 4, (0 : ℤ), (k : ℤ) - 4) : Pos))).filter
    fun o => decide (o.1 ^ 2 + o.2.1 ^ 2 + o.2.2 ^ 2 ≤ (4 + 1) ^ 2)

/-- Sectors reached from `c` by the offsets of `Model.change_sectors`. -/
def sectorDisk (c : Sector) : List Sector :=
  diskOffsets.map fun o => (c.1 + o.1, c.2.1 + o.2.1, c.2.2 + o.2.2)

/-- Disk of an optional sector: `None` contributes nothing to the loop of
`Model.change_sectors` (a sector tuple is always truthy in Python). -/
def optDisk : Option Sector → List Sector
  | none => []
  | some c => sectorDisk c

/-- Sectors `change_sectors` shows: `after_set - before_set`. -/
def change_show (before after : Option Sector) : List Sector :=
  (optDisk after).filter fun s => decide (s ∉ optDisk before)

/-- Sectors `change_sectors` hides: `before_set - after_set`. -/
def change_hide (before after : Option Sector) : List Sector :=
  (optDisk before).filter fun s => decide (s ∉ optDisk after)

/-- Source `Model.change_sectors(before, after)`: show the sectors of the
new disk not in the old one, then hide the sectors of the old disk not in
the new one.  (The source iterates Python sets, whose order is
unspecified; the embedding fixes generation order.  The claims verified
below only concern which sectors are shown and hidden.) -/
def change_sectors (M : Model) (before after : Option Sector) : Model :=
  (change_hide before after).foldl hide_sector
    ((change_show before after).foldl show_sector M)

/-- Execution of one dequeued entry (`self._dequeue`): the stored
`_show_block` / `_hide_block` call runs on the current state. -/
def runEntry (M : Model) (e : QEntry) : Model :=
  match e with
  | QEntry.showEntry position texture => priv_show_block M position texture
  | QEntry.hideEntry position => priv_hide_block M position

/-- Source `Model.process_queue` under a wall-clock budget: the budget
admits some number `k` of entries, and the loop pops and runs at most
that many (and stops early once the queue is empty). -/
def drainK (M : Model) : ℕ → Model
  | 0 => M
  | k + 1 =>
    match M.queue with
    | [] => M
    | e :: rest => drainK (runEntry { M with queue := rest } e) k

/-- Source `Model.process_entire_queue`: pop and run every entry.  The
executed `_show_block` / `_hide_block` calls never enqueue, so the loop
is a left fold over the pending entries. -/
def process_entire_queue (M : Model) : Model :=
  M.queue.foldl runEntry { M with queue := [] }

/-- Recursion of `Model.hit_test`: up to `n` more sub-steps of size `1/m`
(`m = 8`); a sampled block distinct from the previous sample and present
in the world is returned together with the previous sample's block. -/
def hit_testLoop (w : Pos → Option Material) :
    ℕ → ℚ × ℚ × ℚ → ℚ × ℚ × ℚ → Option Pos → Option Pos × Option Pos
  | 0, _, _, _ => (none, none)
  | n + 1, (x, y, z), (dx, dy, dz), previous =>
    let key := normalize (x, y, z)
    if previous ≠ some key ∧ (w key).isSome then (some key, previous)
    else hit_testLoop w n (x + dx / 8, y + dy / 8, z + dz / 8) (dx, dy, dz) (some key)

/-- Source `Model.hit_test(position, vector, max_distance=8)`. -/
def hit_test (w : Pos → Option Material) (position vector : ℚ × ℚ × ℚ)
    (max_distance : ℕ := 8) : Option Pos × Option Pos :=
  hit_testLoop w (max_distance * 8) position vector none

/-- Contact flags of `Window.collide` (`self.collision_types`); the
source only ever sets `top` and `bottom`. -/
structure CollisionFlags where
  top : Bool
  bottom : Bool
  right : Bool
  left : Bool
deriving DecidableEq

/-- The components of a position as a Python-style list. -/
def faceList (p : Pos) : List ℤ := [p.1, p.2.1, p.2.2]

/-- Rebuild a position from a 3-element list. -/
def listToPos (l : List ℤ) : Pos := (l.getD 0 0, l.getD 1 0, l.getD 2 0)

/-- Body of the two nested loops of `Window.collide` for one face and one
axis index `i`: skip axes not aligned with the face and displacements `d`
under the `pad = 0.25` clearance; otherwise scan the entity's column of
cells (offsets `0 .. height-1` below the normalized reference, shifted by
the face normal) and, on the first occupied cell, push the coordinate
back by `d - pad`, record a `top` / `bottom` contact for the vertical
faces and zero the vertical velocity. -/
def collideFaceAxis (w : Pos → Option Material) (npl : List ℤ) (height : ℕ)
    (face : Pos) (st : List ℚ × CollisionFlags × ℚ) (i : ℕ) :
    List ℚ × CollisionFlags × ℚ :=
  let (p, flags, vy) := st
  let fi : ℤ := (faceList face).getD i 0
  if fi = 0 then st
  else
    let d : ℚ := (p.getD i 0 - ((npl.getD i 0 : ℤ) : ℚ)) * (fi : ℚ)
    if d < 1 / 4 then st
    else
      -- The source scans `dy in range(height)` and breaks at the first
      -- occupied cell; the body's effect does not depend on which `dy`
      -- hit, so the loop reduces to an existence test over the column.
      if (List.range height).any (fun dy =>
        let op0 := npl.set 1 (npl.getD 1 0 - (dy : ℤ))
        let op := op0.set i (op0.getD i 0 + fi)
        (w (listToPos op)).isSome) then
        let p2 := p.set i (p.getD i 0 - (d - 1 / 4) * (fi : ℚ))
        let flags2 := if face = (((0 : ℤ), (-1 : ℤ), (0 : ℤ)) : Pos) then
            { flags with top := true } else flags
        let vy2 : ℚ := if face = (((0 : ℤ), (-1 : ℤ), (0 : ℤ)) : Pos) then 0 else vy
        let flags3 := if face = (((0 : ℤ), (1 : ℤ), (0 : ℤ)) : Pos) then
            { flags2 with bottom := true } else flags2
        let vy3 : ℚ := if face = (((0 : ℤ), (1 : ℤ), (0 : ℤ)) : Pos) then 0 else vy2
        (p2, flags3, vy3)
      else st

/-- Source `Window.collide(position, height)`: axis-decoupled collision
against the world, resolved from the normalized *argument* position (the
desired position).  Besides the corrected position the source mutates
`self.collision_types` (reset on entry) and `self.dy`; both are threaded
explicitly, `vy0` being the incoming vertical velocity. -/
def collide (w : Pos → Option Material) (position : ℚ × ℚ × ℚ) (height : ℕ) (vy0 : ℚ) :
    (ℚ × ℚ × ℚ) × CollisionFlags × ℚ :=
  let np := normalize position
  let npl : List ℤ := [np.1, np.2.1, np.2.2]
  let init : List ℚ × CollisionFlags × ℚ :=
    ([position.1, position.2.1, position.2.2],
     { top := false, bottom := false, right := false, left := false }, vy0)
  let final := FACES.foldl
    (fun st face => [0, 1, 2].foldl (collideFaceAxis w npl height face) st) init
  ((final.1.getD 0 0, final.1.getD 1 0, final.1.getD 2 0), final.2.1, final.2.2)

/-! ### Derived state predicates and auxiliary values used by the claims -/

/-- ShownSet soundness invariant claimed by the specification: every
position recorded as shown is present in the world. -/
def ShownInv (M : Model) : Prop :=
  ∀ p : Pos, (M.shown p).isSome = true → (M.world p).isSome = true

/-- Value taken by `shown` at a cell after `check_neighbors` has processed
that cell (with the world map `w` fixed and `sv` the previous shown
entry): a cell absent from the world is untouched; an exposed cell is
shown (keeping an existing entry); an occluded cell is hidden. -/
def visShown (w : Pos → Option Material) (sv : Option Material) (q : Pos) : Option Material :=
  match w q with
  | none => sv
  | some t => if exposedB w q then (if sv.isNone then some t else sv) else none

/-- Membership in the sector disk exactly as the specification words it:
offsets `dx`, `dz` in `-pad .. pad` with `pad = 4` on the `y = 0` sector
layer, subject to the squared-distance cutoff `(pad + 1)^2`. -/
def specInDisk (c q : Sector) : Prop :=
  ∃ dx dz : ℤ, -4 ≤ dx ∧ dx ≤ 4 ∧ -4 ≤ dz ∧ dz ≤ 4 ∧
    dx ^ 2 + dz ^ 2 ≤ (4 + 1) ^ 2 ∧ q = (c.1 + dx, c.2.1, c.2.2 + dz)

/-! ### Concrete states used by scenarios, counterexamples and witnesses -/

/-- World holding exactly one `STONE` block at the origin. -/
def worldStone : Pos → Option Material := fun q => if q = (0, 0, 0) then some STONE else none

/-- Model whose world and shown map are the single origin block, with the
matching sector bucket: a consistent fully-shown state. -/
def MStone : Model :=
  { world := worldStone, shown := worldStone, rendered := fun _ => false,
    sectors := fupd (fun _ => []) (0, 0, 0) [(0, 0, 0)], queue := [] }

/-- Completely empty model state. -/
def MEmpty : Model :=
  { world := fun _ => none, shown := fun _ => none, rendered := fun _ => false,
    sectors := fun _ => [], queue := [] }

/-- World holding exactly one `STONE` block at `(1, 0, 0)`. -/
def worldGap : Pos → Option Material := fun q => if q = (1, 0, 0) then some STONE else none

/-- Model with one block at `(1, 0, 0)` that is not currently shown (its
sector has not been streamed in), bucket consistent with the world. -/
def MGap : Model :=
  { world := worldGap, shown := fun _ => none, rendered := fun _ => false,
    sectors := fupd (fun _ => []) (0, 0, 0) [(1, 0, 0)], queue := [] }

/-- World holding a block at the origin and at five of its six neighbors,
leaving only the face toward `(1, 0, 0)` open. -/
def worldPocket : Pos → Option Material := fun q =>
  if q = (0, 0, 0) ∨ q = (0, 1, 0) ∨ q = (0, -1, 0) ∨ q = (-1, 0, 0) ∨ q = (0, 0, 1) ∨
      q = (0, 0, -1) then some STONE else none

/-- Model over `worldPocket` in which the origin block is shown: its only
exposed face points at the free cell `(1, 0, 0)`. -/
def MPocket : Model :=
  { world := worldPocket, shown := fun q => if q = (0, 0, 0) then some STONE else none,
    rendered := fun _ => false, sectors := fun _ => [], queue := [] }

/-! ### Pointwise-update lemmas -/

theorem fupd_same {α : Type} (g : Pos → α) (p : Pos) (v : α) : fupd g p v p = v := by
  simp [fupd]

theorem fupd_other {α : Type} (g : Pos → α) (p q : Pos) (v : α) (h : q ≠ p) :
    fupd g p v q = g q := by
  simp [fupd, h]

theorem fupd_fupd {α : Type} (g : Pos → α) (p : Pos) (u v : α) :
    fupd (fupd g p u) p v = fupd g p v := by
  funext q
  by_cases h : q = p <;> simp [fupd, h]

theorem fupd_self {α : Type} (g : Pos → α) (p : Pos) (v : α) (h : g p = v) :
    fupd g p v = g := by
  funext q
  by_cases hq : q = p <;> simp [fupd, hq, h]

/-! ### Field lemmas for the show and hide primitives -/

theorem show_block_world (M : Model) (p : Pos) (b : Bool) :
    (show_block M p b).world = M.world := by
  cases h : M.world p <;> cases b <;> simp [show_block, h, priv_show_block]

theorem show_block_sectors (M : Model) (p : Pos) (b : Bool) :
    (show_block M p b).sectors = M.sectors := by
  cases h : M.world p <;> cases b <;> simp [show_block, h, priv_show_block]

theorem show_block_queue_true (M : Model) (p : Pos) :
    (show_block M p true).queue = M.queue := by
  cases h : M.world p <;> simp [show_block, h, priv_show_block]

theorem show_block_of_none (M : Model) (p : Pos) (b : Bool) (h : M.world p = none) :
    show_block M p b = M := by
  simp [show_block, h]

theorem show_block_shown_of_some (M : Model) (p : Pos) (b : Bool) (t : Material)
    (h : M.world p = some t) : (show_block M p b).shown = fupd M.shown p (some t) := by
  cases b <;> simp [show_block, h, priv_show_block]

theorem show_block_rendered_ne (M : Model) (p : Pos) (b : Bool) (r : Pos) (h : r ≠ p) :
    (show_block M p b).rendered r = M.rendered r := by
  cases hw : M.world p <;> cases b <;>
    simp [show_block, hw, priv_show_block, fupd_other _ _ _ _ h]

theorem hide_block_world (M : Model) (p : Pos) (b : Bool) :
    (hide_block M p b).world = M.world := by
  cases h : (M.shown p).isSome <;> cases b <;> simp [hide_block, h, priv_hide_block]

theorem hide_block_sectors (M : Model) (p : Pos) (b : Bool) :
    (hide_block M p b).sectors = M.sectors := by
  cases h : (M.shown p).isSome <;> cases b <;> simp [hide_block, h, priv_hide_block]

theorem hide_block_queue_true (M : Model) (p : Pos) :
    (hide_block M p true).queue = M.queue := by
  cases h : (M.shown p).isSome <;> simp [hide_block, h, priv_hide_block]

theorem hide_block_shown (M : Model) (p : Pos) (b : Bool) :
    (hide_block M p b).shown = fun r => if r = p then none else M.shown r := by
  funext r
  cases h : (M.shown p).isSome <;> cases b <;>
    by_cases hr : r = p <;>
    simp [hide_block, h, priv_hide_block, fupd, hr] <;>
    subst hr <;>
    simpa [Option.isSome_iff_exists] using h

theorem hide_block_rendered_true (M : Model) (p : Pos) :
    (hide_block M p true).rendered = fupd M.rendered p false := by
  cases h : (M.shown p).isSome <;> simp [hide_block, h, priv_hide_block]

theorem hide_block_rendered_ne (M : Model) (p : Pos) (b : Bool) (r : Pos) (h : r ≠ p) :
    (hide_block M p b).rendered r = M.rendered r := by
  cases hs : (M.shown p).isSome <;> cases b <;>
    simp [hide_block, hs, priv_hide_block, fupd_other _ _ _ _ h]

/-! ### The neighbor-visibility step and `check_neighbors` -/

theorem visStep_world (M : Model) (q : Pos) : (visStep M q).world = M.world := by
  unfold visStep
  split
  · rfl
  · split
    · split
      · exact show_block_world _ _ _
      · rfl
    · split
      · exact hide_block_world _ _ _
      · rfl

theorem visStep_sectors (M : Model) (q : Pos) : (visStep M q).sectors = M.sectors := by
  unfold visStep
  split
  · rfl
  · split
    · split
      · exact show_block_sectors _ _ _
      · rfl
    · split
      · exact hide_block_sectors _ _ _
      · rfl

theorem visStep_queue (M : Model) (q : Pos) : (visStep M q).queue = M.queue := by
  unfold visStep
  split
  · rfl
  · split
    · split
      · exact show_block_queue_true _ _
      · rfl
    · split
      · exact hide_block_queue_true _ _
      · rfl

theorem visStep_shown (M : Model) (q r : Pos) :
    (visStep M q).shown r =
      if r = q then visShown M.world (M.shown q) q else M.shown r := by
  unfold visStep visShown
  cases h : M.world q with
  | none => by_cases hr : r = q <;> simp [hr, h]
  | some t =>
    rcases hsq : M.shown q with _ | sv <;> by_cases he : exposedB M.world q <;>
      by_cases hr : r = q <;>
      simp [h, hsq, he, hr, show_block_shown_of_some M q true t h, hide_block_shown, fupd]

theorem visStep_rendered_ne (M : Model) (q r : Pos) (h : r ≠ q) :
    (visStep M q).rendered r = M.rendered r := by
  unfold visStep
  split
  · rfl
  · split
    · split
      · exact show_block_rendered_ne _ _ _ _ h
      · rfl
    · split
      · exact hide_block_rendered_ne _ _ _ _ h
      · rfl

theorem foldl_visStep_world (L : List Pos) (M : Model) :
    (L.foldl visStep M).world = M.world := by
  induction L generalizing M with
  | nil => rfl
  | cons q L ih => rw [List.foldl_cons, ih, visStep_world]

theorem foldl_visStep_sectors (L : List Pos) (M : Model) :
    (L.foldl visStep M).sectors = M.sectors := by
  induction L generalizing M with
  | nil => rfl
  | cons q L ih => rw [List.foldl_cons, ih, visStep_sectors]

theorem foldl_visStep_queue (L : List Pos) (M : Model) :
    (L.foldl visStep M).queue = M.queue := by
  induction L generalizing M with
  | nil => rfl
  | cons q L ih => rw [List.foldl_cons, ih, visStep_queue]

theorem foldl_visStep_shown_not_mem (L : List Pos) (M : Model) (r : Pos) (h : r ∉ L) :
    (L.foldl visStep M).shown r = M.shown r := by
  induction L generalizing M with
  | nil => rfl
  | cons q L ih =>
    have hrq : r ≠ q := fun he => h (he ▸ List.mem_cons_self q L)
    rw [List.foldl_cons, ih _ (fun hm => h (List.mem_cons_of_mem _ hm)), visStep_shown]
    simp [hrq]

theorem foldl_visStep_rendered_not_mem (L : List Pos) (M : Model) (r : Pos) (h : r ∉ L) :
    (L.foldl visStep M).rendered r = M.rendered r := by
  induction L generalizing M with
  | nil => rfl
  | cons q L ih =>
    rw [List.foldl_cons, ih _ (fun hm => h (List.mem_cons_of_mem _ hm)),
      visStep_rendered_ne _ _ _ (fun he : r = q => h (he ▸ List.mem_cons_self q L))]

theorem foldl_visStep_shown (L : List Pos) (hL : L.Nodup) (M : Model) (r : Pos) :
    (L.foldl visStep M).shown r =
      if r ∈ L then visShown M.world (M.shown r) r else M.shown r := by
  induction L generalizing M with
  | nil => simp
  | cons q L ih =>
    obtain ⟨hqL, hL2⟩ := List.nodup_cons.mp hL
    rw [List.foldl_cons, ih hL2, visStep_world]
    by_cases hrL : r ∈ L
    · have hrq : r ≠ q := fun h => hqL (h ▸ hrL)
      rw [visStep_shown]
      simp [hrL, hrq]
    · rw [visStep_shown]
      by_cases hrq : r = q
      · subst hrq
        simp [hrL]
      · simp [hrL, hrq]

theorem check_neighbors_eq (M : Model) (p : Pos) :
    check_neighbors M p = (FACES.map (padd p)).foldl visStep M := by
  rw [check_neighbors, List.foldl_map]

theorem padd_left_injective (p : Pos) : Function.Injective (padd p) := by
  rintro ⟨f1, f2, f3⟩ ⟨g1, g2, g3⟩ h
  simp only [padd, Prod.mk.injEq] at h ⊢
  omega

theorem FACES_nodup : FACES.Nodup := by decide

theorem nbrs_nodup (p : Pos) : (FACES.map (padd p)).Nodup :=
  FACES_nodup.map (padd_left_injective p)

theorem padd_ne_self (p f : Pos) (hf : f ∈ FACES) : padd p f ≠ p := by
  fin_cases hf <;> simp [padd, Prod.ext_iff]

theorem self_not_mem_nbrs (p : Pos) : p ∉ FACES.map (padd p) := by
  intro hmem
  obtain ⟨f, hf, hfp⟩ := List.mem_map.mp hmem
  exact padd_ne_self p f hf hfp

theorem check_neighbors_world (M : Model) (p : Pos) :
    (check_neighbors M p).world = M.world := by
  rw [check_neighbors_eq]; exact foldl_visStep_world _ _

theorem check_neighbors_sectors (M : Model) (p : Pos) :
    (check_neighbors M p).sectors = M.sectors := by
  rw [check_neighbors_eq]; exact foldl_visStep_sectors _ _

theorem check_neighbors_queue (M : Model) (p : Pos) :
    (check_neighbors M p).queue = M.queue := by
  rw [check_neighbors_eq]; exact foldl_visStep_queue _ _

theorem check_neighbors_shown (M : Model) (p r : Pos) :
    (check_neighbors M p).shown r =
      if r ∈ FACES.map (padd p) then visShown M.world (M.shown r) r else M.shown r := by
  rw [check_neighbors_eq]; exact foldl_visStep_shown _ (nbrs_nodup p) _ _

theorem check_neighbors_shown_self (M : Model) (p : Pos) :
    (check_neighbors M p).shown p = M.shown p := by
  rw [check_neighbors_eq]; exact foldl_visStep_shown_not_mem _ _ _ (self_not_mem_nbrs p)

theorem check_neighbors_rendered_self (M : Model) (p : Pos) :
    (check_neighbors M p).rendered p = M.rendered p := by
  rw [check_neighbors_eq]; exact foldl_visStep_rendered_not_mem _ _ _ (self_not_mem_nbrs p)

/-! ### Field lemmas for `remove_block` and `add_block` -/

theorem remove_block_of_none (M : Model) (p : Pos) (b : Bool) (h : M.world p = none) :
    remove_block M p b = M := by
  simp [remove_block, h]

theorem remove_block_world (M : Model) (p : Pos) (b : Bool) (t : Material)
    (h : M.world p = some t) : (remove_block M p b).world = fupd M.world p none := by
  unfold remove_block
  simp only [h]
  cases b
  · rfl
  · simp only [if_true]
    rw [check_neighbors_world]
    split
    · rw [hide_block_world]
    · rfl

theorem remove_block_sectors (M : Model) (p : Pos) (b : Bool) (t : Material)
    (h : M.world p = some t) :
    (remove_block M p b).sectors =
      fupd M.sectors (sectorizeP p) ((M.sectors (sectorizeP p)).erase p) := by
  unfold remove_block
  simp only [h]
  cases b
  · rfl
  · simp only [if_true]
    rw [check_neighbors_sectors]
    split
    · rw [hide_block_sectors]
    · rfl

theorem remove_block_queue (M : Model) (p : Pos) (b : Bool) :
    (remove_block M p b).queue = M.queue := by
  rcases h : M.world p with _ | t
  · rw [remove_block_of_none _ _ _ h]
  · unfold remove_block
    simp only [h]
    cases b
    · rfl
    · simp only [if_true]
      rw [check_neighbors_queue]
      split
      · rw [hide_block_queue_true]
      · rfl

theorem remove_block_shown_false (M : Model) (p : Pos) :
    (remove_block M p false).shown = M.shown := by
  rcases h : M.world p with _ | t
  · rw [remove_block_of_none _ _ _ h]
  · unfold remove_block
    simp only [h]
    rfl

theorem remove_block_world_ne (M : Model) (p : Pos) (b : Bool) (r : Pos) (h : r ≠ p) :
    (remove_block M p b).world r = M.world r := by
  rcases hw : M.world p with _ | t
  · rw [remove_block_of_none _ _ _ hw]
  · rw [remove_block_world _ _ _ _ hw, fupd_other _ _ _ _ h]

theorem add_block_world (M : Model) (p : Pos) (m : Material) (b : Bool) :
    (add_block M p m b).world = fupd M.world p (some m) := by
  unfold add_block
  by_cases hw : (M.world p).isSome
  · obtain ⟨t, ht⟩ := Option.isSome_iff_exists.mp hw
    cases b <;>
      simp [hw, check_neighbors_world, apply_ite Model.world, show_block_world,
        remove_block_world M p false t ht, remove_block_world M p true t ht, fupd_fupd]
  · cases b <;>
      simp [hw, check_neighbors_world, apply_ite Model.world, show_block_world]

theorem add_block_sectors (M : Model) (p : Pos) (m : Material) (b : Bool) :
    (add_block M p m b).sectors =
      fupd M.sectors (sectorizeP p)
        ((if (M.world p).isSome then (M.sectors (sectorizeP p)).erase p
          else M.sectors (sectorizeP p)) ++ [p]) := by
  unfold add_block
  by_cases hw : (M.world p).isSome
  · obtain ⟨t, ht⟩ := Option.isSome_iff_exists.mp hw
    cases b <;>
      simp [hw, check_neighbors_sectors, apply_ite Model.sectors, show_block_sectors,
        remove_block_sectors M p false t ht, remove_block_sectors M p true t ht,
        fupd_fupd, fupd_same]
  · cases b <;>
      simp [hw, check_neighbors_sectors, apply_ite Model.sectors, show_block_sectors]

theorem add_block_queue_true (M : Model) (p : Pos) (m : Material) :
    (add_block M p m true).queue = M.queue := by
  unfold add_block
  simp [check_neighbors_queue, apply_ite Model.queue, show_block_queue_true,
    remove_block_queue, ite_self]

/-! ### Preservation of the ShownSet soundness invariant -/

theorem foldl_preserve {α : Type} {P : Model → Prop} (f : Model → α → Model)
    (hstep : ∀ M a, P M → P (f M a)) :
    ∀ (L : List α) (M : Model), P M → P (L.foldl f M) := by
  intro L
  induction L with
  | nil => exact fun M h => h
  | cons a L ih => exact fun M h => ih _ (hstep M a h)

theorem shownInv_show_block (M : Model) (p : Pos) (b : Bool) (h : ShownInv M) :
    ShownInv (show_block M p b) := by
  intro r hr
  rw [show_block_world]
  rcases hw : M.world p with _ | t
  · rw [show_block_of_none _ _ _ hw] at hr
    exact h r hr
  · rw [show_block_shown_of_some _ _ _ _ hw] at hr
    by_cases hrp : r = p
    · subst hrp
      simp [hw]
    · rw [fupd_other _ _ _ _ hrp] at hr
      exact h r hr

theorem shownInv_hide_block (M : Model) (p : Pos) (b : Bool) (h : ShownInv M) :
    ShownInv (hide_block M p b) := by
  intro r hr
  rw [hide_block_world]
  simp only [hide_block_shown] at hr
  by_cases hrp : r = p
  · simp [hrp] at hr
  · rw [if_neg hrp] at hr
    exact h r hr

theorem shownInv_visStep (M : Model) (q : Pos) (h : ShownInv M) : ShownInv (visStep M q) := by
  unfold visStep
  split
  · exact h
  · split
    · split
      · exact shownInv_show_block _ _ _ h
      · exact h
    · split
      · exact shownInv_hide_block _ _ _ h
      · exact h

theorem shownInv_check_neighbors (M : Model) (p : Pos) (h : ShownInv M) :
    ShownInv (check_neighbors M p) := by
  rw [check_neighbors_eq]
  exact foldl_preserve _ (fun M q hq => shownInv_visStep M q hq) _ _ h

theorem shownInv_delete_hide (M : Model) (p : Pos) (h : ShownInv M)
    (M1 : Model) (hW : M1.world = fupd M.world p none) (hS : M1.shown = M.shown) :
    ShownInv (if (M.shown p).isSome then hide_block M1 p true else M1) := by
  by_cases hs : (M.shown p).isSome
  · simp only [hs, if_true]
    intro r hr
    rw [hide_block_world, hW]
    simp only [hide_block_shown] at hr
    by_cases hrp : r = p
    · simp [hrp] at hr
    · rw [if_neg hrp] at hr
      rw [hS] at hr
      rw [fupd_other _ _ _ _ hrp]
      exact h r hr
  · simp only [hs, if_false, Bool.false_eq_true]
    intro r hr
    rw [hW]
    by_cases hrp : r = p
    · rw [hrp, hS] at hr
      exact absurd hr (by simpa using hs)
    · rw [hS] at hr
      rw [fupd_other _ _ _ _ hrp]
      exact h r hr

theorem shownInv_remove_block (M : Model) (p : Pos) (h : ShownInv M) :
    ShownInv (remove_block M p true) := by
  rcases hw : M.world p with _ | t
  · rw [remove_block_of_none _ _ _ hw]
    exact h
  · unfold remove_block
    simp only [hw, if_true]
    refine shownInv_check_neighbors _ _ (shownInv_delete_hide M p h _ ?_ ?_) <;> rfl

theorem shownInv_imm_tail (N : Model) (p : Pos) (hN : ShownInv N) :
    ShownInv (check_neighbors (if exposedB N.world p then show_block N p true else N) p) := by
  refine shownInv_check_neighbors _ _ ?_
  by_cases he : exposedB N.world p
  · rw [if_pos he]
    exact shownInv_show_block _ _ _ hN
  · rw [if_neg (by simpa using he)]
    exact hN

theorem shownInv_add_block (M : Model) (p : Pos) (m : Material) (b : Bool) (h : ShownInv M) :
    ShownInv (add_block M p m b) := by
  have hM0 : ∀ r, r ≠ p →
      (((if (M.world p).isSome then remove_block M p b else M).shown r).isSome = true →
        ((if (M.world p).isSome then remove_block M p b else M).world r).isSome = true) := by
    intro r hrp
    by_cases hw : (M.world p).isSome
    · obtain ⟨t, ht⟩ := Option.isSome_iff_exists.mp hw
      simp only [hw, if_true]
      cases b
      · rw [remove_block_shown_false, remove_block_world_ne _ _ _ _ hrp]
        exact h r
      · exact fun hr => shownInv_remove_block M p h r hr
    · simp only [hw, if_false, Bool.false_eq_true]
      exact h r
  unfold add_block
  generalize hg : (if (M.world p).isSome = true then remove_block M p b else M) = M0x
  rw [hg] at hM0
  have hM1 : ShownInv
      { M0x with
        world := fupd M0x.world p (some m),
        sectors := fupd M0x.sectors (sectorizeP p) (M0x.sectors (sectorizeP p) ++ [p]) } := by
    intro r hr
    by_cases hrp : r = p
    · subst hrp
      simp [fupd_same]
    · show (fupd M0x.world p (some m) r).isSome = true
      rw [fupd_other _ _ _ _ hrp]
      exact hM0 r hrp hr
  cases b
  · exact hM1
  · exact shownInv_imm_tail _ p hM1

theorem shownInv_show_sector (M : Model) (s : Sector) (h : ShownInv M) :
    ShownInv (show_sector M s) := by
  unfold show_sector
  refine foldl_preserve _ ?_ _ _ h
  intro N q hN
  split
  · exact shownInv_show_block _ _ _ hN
  · exact hN

theorem shownInv_hide_sector (M : Model) (s : Sector) (h : ShownInv M) :
    ShownInv (hide_sector M s) := by
  unfold hide_sector
  refine foldl_preserve _ ?_ _ _ h
  intro N q hN
  split
  · exact shownInv_hide_block _ _ _ hN
  · exact hN

theorem shownInv_runEntry (M : Model) (e : QEntry) (h : ShownInv M) : ShownInv (runEntry M e) := by
  cases e <;> exact h

theorem shownInv_drainK (M : Model) (k : ℕ) (h : ShownInv M) : ShownInv (drainK M k) := by
  induction k generalizing M with
  | zero => exact h
  | succ k ih =>
    unfold drainK
    split
    · exact h
    · exact ih _ (shownInv_runEntry _ _ h)

theorem shownInv_process_entire_queue (M : Model) (h : ShownInv M) :
    ShownInv (process_entire_queue M) := by
  unfold process_entire_queue
  exact foldl_preserve _ (fun N e hN => shownInv_runEntry N e hN) _ _ h

/-! ### Exposure helpers -/

theorem pneg_mem_FACES (f : Pos) (hf : f ∈ FACES) : pneg f ∈ FACES := by
  fin_cases hf <;> decide

theorem padd_padd_pneg (p f : Pos) : padd (padd p f) (pneg f) = p := by
  rcases p with ⟨p1, p2, p3⟩
  rcases f with ⟨f1, f2, f3⟩
  simp only [padd, pneg, Prod.mk.injEq]
  omega

theorem exposedB_of_absent (w : Pos → Option Material) (p : Pos) (f : Pos)
    (hw : w p = none) (hf : f ∈ FACES) : exposedB w (padd p f) = true := by
  unfold exposedB
  rw [List.any_eq_true]
  refine ⟨pneg f, pneg_mem_FACES f hf, ?_⟩
  rw [padd_padd_pneg, hw]
  rfl

/-! ### Sector-disk characterization -/

theorem mem_sectorDisk (c s : Sector) : s ∈ sectorDisk c ↔ specInDisk c s := by
  unfold sectorDisk diskOffsets specInDisk
  rw [List.mem_map]
  constructor
  · rintro ⟨o, ho, rfl⟩
    rw [List.mem_filter] at ho
    obtain ⟨hof, hcond⟩ := ho
    rw [List.mem_flatMap] at hof
    obtain ⟨i, hi, ho2⟩ := hof
    rw [List.mem_map] at ho2
    obtain ⟨k, hk, rfl⟩ := ho2
    rw [List.mem_range] at hi
    rw [List.mem_range] at hk
    rw [decide_eq_true_iff] at hcond
    refine ⟨(i : ℤ) - 4, (k : ℤ) - 4, by omega, by omega, by omega, by omega, ?_, ?_⟩
    · simpa using hcond
    · simp
  · rintro ⟨dx, dz, h1, h2, h3, h4, h5, rfl⟩
    refine ⟨(dx, 0, dz), ?_, by simp⟩
    rw [List.mem_filter]
    constructor
    · rw [List.mem_flatMap]
      refine ⟨(dx + 4).toNat, by rw [List.mem_range]; omega, ?_⟩
      rw [List.mem_map]
      refine ⟨(dz + 4).toNat, by rw [List.mem_range]; omega, ?_⟩
      simp only [Prod.mk.injEq]
      refine ⟨by omega, trivial, by omega⟩
    · rw [decide_eq_true_iff]
      simpa using h5

theorem mem_change_show_some (b a s : Sector) :
    s ∈ change_show (some b) (some a) ↔ specInDisk a s ∧ ¬ specInDisk b s := by
  unfold change_show optDisk
  rw [List.mem_filter, decide_eq_true_iff, mem_sectorDisk, mem_sectorDisk]

theorem mem_change_hide_some (b a s : Sector) :
    s ∈ change_hide (some b) (some a) ↔ specInDisk b s ∧ ¬ specInDisk a s := by
  unfold change_hide optDisk
  rw [List.mem_filter, decide_eq_true_iff, mem_sectorDisk, mem_sectorDisk]

theorem mem_change_show_none (a s : Sector) :
    s ∈ change_show none (some a) ↔ specInDisk a s := by
  unfold change_show optDisk
  rw [List.mem_filter, mem_sectorDisk]
  simp

theorem change_hide_none (a : Option Sector) : change_hide none a = [] := rfl

/-! ### Single steps of the ray-cast loop -/

theorem hit_testLoop_miss {w : Pos → Option Material} {n : ℕ} {x y z dx dy dz x2 y2 z2 : ℚ}
    {prev : Option Pos} {k : Pos}
    (hkey : normalize (x, y, z) = k)
    (hmiss : prev = some k ∨ w k = none)
    (hx : x + dx / 8 = x2) (hy : y + dy / 8 = y2) (hz : z + dz / 8 = z2) :
    hit_testLoop w (n + 1) (x, y, z) (dx, dy, dz) prev =
      hit_testLoop w n (x2, y2, z2) (dx, dy, dz) (some k) := by
  subst hkey hx hy hz
  rcases hmiss with h | h <;> simp [hit_testLoop, h]

theorem hit_testLoop_hit {w : Pos → Option Material} {n : ℕ} {x y z dx dy dz : ℚ}
    {prev : Option Pos} {k : Pos}
    (hkey : normalize (x, y, z) = k)
    (hprev : prev ≠ some k)
    (hw : (w k).isSome = true) :
    hit_testLoop w (n + 1) (x, y, z) (dx, dy, dz) prev = (some k, prev) := by
  subst hkey
  simp [hit_testLoop, hprev, hw]

theorem hit_testLoop_empty (n : ℕ) (position vector : ℚ × ℚ × ℚ) (prev : Option Pos) :
    hit_testLoop (fun _ => none) n position vector prev = (none, none) := by
  induction n generalizing position vector prev with
  | zero =>
    rcases position with ⟨x, y, z⟩
    rcases vector with ⟨dx, dy, dz⟩
    rfl
  | succ n ih =>
    rcases position with ⟨x, y, z⟩
    rcases vector with ⟨dx, dy, dz⟩
    rw [hit_testLoop_miss rfl (Or.inr rfl) rfl rfl rfl, ih]

/-- Explicit value of `List.range 2`, used when evaluating the collision
scan for an entity of height 2. -/
theorem range_two : List.range 2 = [0, 1] := rfl

/-! ### Geometry evaluation helpers -/

theorem pyRound_intCast (n : ℤ) : pyRound ((n : ℚ)) = n := by
  simp only [pyRound, Int.floor_intCast]
  norm_num

theorem sectorizeP_eq (p : Pos) :
    sectorizeP p = (p.1.fdiv SECTOR_SIZE, 0, p.2.2.fdiv SECTOR_SIZE) := by
  simp [sectorizeP, sectorize, posQ, normalize, pyRound_intCast]

/-! ### Shown-map shape of an immediate add at a fresh position, and of an
immediate remove -/

theorem add_block_shown_fresh (M : Model) (p : Pos) (m : Material) (hW : M.world p = none)
    (r : Pos) :
    (add_block M p m true).shown r =
      if r ∈ FACES.map (padd p) then
        visShown (fupd M.world p (some m)) (M.shown r) r
      else if r = p then
        (if exposedB (fupd M.world p (some m)) p then some m else M.shown p)
      else M.shown r := by
  unfold add_block
  have hW' : (M.world p).isSome = false := by simp [hW]
  simp only [hW', Bool.false_eq_true, if_false, eq_self_iff_true, if_true]
  rw [check_neighbors_shown]
  have hself : fupd M.world p (some m) p = some m := fupd_same _ _ _
  by_cases he : exposedB (fupd M.world p (some m)) p
  · rw [if_pos he, show_block_world, show_block_shown_of_some _ _ _ _ hself]
    by_cases hrn : r ∈ FACES.map (padd p)
    · have hrp : r ≠ p := fun h2 => self_not_mem_nbrs p (h2 ▸ hrn)
      rw [if_pos hrn, if_pos hrn, fupd_other _ _ _ _ hrp]
    · by_cases hrp : r = p
      · subst hrp
        rw [if_neg hrn, if_neg hrn, if_pos rfl, fupd_same, if_pos he]
      · rw [if_neg hrn, if_neg hrn, if_neg hrp, fupd_other _ _ _ _ hrp]
  · rw [if_neg he]
    by_cases hrn : r ∈ FACES.map (padd p)
    · rw [if_pos hrn, if_pos hrn]
    · by_cases hrp : r = p
      · subst hrp
        rw [if_neg hrn, if_neg hrn, if_pos rfl, if_neg he]
      · rw [if_neg hrn, if_neg hrn, if_neg hrp]

theorem delete_hide_shown (M M1 : Model) (p s : Pos) (hS : M1.shown = M.shown) :
    ((if (M.shown p).isSome = true then hide_block M1 p true else M1).shown s) =
      if s = p then none else M.shown s := by
  by_cases hsp : (M.shown p).isSome
  · rw [if_pos hsp]
    simp only [hide_block_shown, hS]
  · rw [if_neg hsp, hS]
    by_cases hsp2 : s = p
    · subst hsp2
      rw [if_pos rfl]
      exact Option.not_isSome_iff_eq_none.mp (by simpa using hsp)
    · rw [if_neg hsp2]

theorem delete_hide_world (M M1 : Model) (p : Pos) :
    ((if (M.shown p).isSome = true then hide_block M1 p true else M1).world) = M1.world := by
  by_cases hsp : (M.shown p).isSome
  · rw [if_pos hsp, hide_block_world]
  · rw [if_neg hsp]

theorem delete_hide_sectors (M M1 : Model) (p : Pos) :
    ((if (M.shown p).isSome = true then hide_block M1 p true else M1).sectors) = M1.sectors := by
  by_cases hsp : (M.shown p).isSome
  · rw [if_pos hsp, hide_block_sectors]
  · rw [if_neg hsp]

theorem remove_block_shown_imm (M : Model) (p : Pos) (t : Material) (h : M.world p = some t)
    (r : Pos) :
    (remove_block M p true).shown r =
      if r ∈ FACES.map (padd p) then visShown (fupd M.world p none) (M.shown r) r
      else if r = p then none
      else M.shown r := by
  unfold remove_block
  simp only [h, eq_self_iff_true, if_true]
  rw [check_neighbors_shown, delete_hide_world]
  by_cases hrn : r ∈ FACES.map (padd p)
  · have hrp : r ≠ p := fun hh => self_not_mem_nbrs p (hh ▸ hrn)
    rw [if_pos hrn, if_pos hrn, delete_hide_shown, if_neg hrp]
    rfl
  · rw [if_neg hrn, if_neg hrn, delete_hide_shown]
    rfl

/-- Round-trip behavior of the shown entry of one neighbor of a fresh
position: showing the world's entry toward an absent cell `p`, filling
`p`, letting `check_neighbors` act, emptying `p`, and letting
`check_neighbors` act again restores the original entry. -/
theorem visShown_restore (w : Pos → Option Material) (m : Material) (p f : Pos)
    (hf : f ∈ FACES) (hW : w p = none) (sv : Option Material)
    (hcons : (w (padd p f)).isSome = true → sv = w (padd p f)) :
    visShown w (visShown (fupd w p (some m)) sv (padd p f)) (padd p f) = sv := by
  have hrp : padd p f ≠ p := padd_ne_self p f hf
  have hEr : exposedB w (padd p f) = true := exposedB_of_absent w p f hW hf
  rcases hwr : w (padd p f) with _ | t
  · have h1 : fupd w p (some m) (padd p f) = none := by
      rw [fupd_other _ _ _ _ hrp, hwr]
    simp [visShown, h1, hwr]
  · have hsv : sv = some t := by rw [hcons (by simp [hwr]), hwr]
    have h1 : fupd w p (some m) (padd p f) = some t := by
      rw [fupd_other _ _ _ _ hrp, hwr]
    subst hsv
    cases he : exposedB (fupd w p (some m)) (padd p f) <;>
      simp [visShown, h1, hwr, hEr, he]


/-! ### Claim theorems -/

/-- C1 (counterexample): in the spec scenario (world = one block at the
origin, entity of height 2 moving to `(0, 0.5, 0)`), the resolver does
not report a `top` contact and the corrected y component is below
`1 - 0.25`: the code normalizes the desired position (giving reference
cell `(0,0,0)`), so the hit is registered on the upward face instead. -/
theorem claim_C1_counterexample :
    (collide worldStone (0, 1 / 2, 0) PLAYER_HEIGHT (-3)).2.1.top = false ∧
    (collide worldStone (0, 1 / 2, 0) PLAYER_HEIGHT (-3)).1.2.1 < 1 - 1 / 4 := by
  have h : collide worldStone (0, 1 / 2, 0) PLAYER_HEIGHT (-3) =
      ((0, 1 / 4, 0), { top := false, bottom := true, right := false, left := false }, 0) := by
    norm_num [collide, collideFaceAxis, faceList, listToPos, normalize, pyRound, FACES,
      worldStone, range_two, PLAYER_HEIGHT]
  rw [h]
  norm_num

/-- C1 (amended): with World holding exactly one block at the origin, the
collision resolver called on desired position `(0, 0.5, 0)` for an entity
of height 2 normalizes the desired position to reference cell `(0,0,0)`,
so it returns corrected position `(0, 0.25, 0)`, sets the `bottom` flag
(not `top`), and resets the vertical velocity to 0, whatever its incoming
value. -/
theorem claim_C1 (vy0 : ℚ) :
    collide worldStone (0, 1 / 2, 0) PLAYER_HEIGHT vy0 =
      ((0, 1 / 4, 0), { top := false, bottom := true, right := false, left := false }, 0) := by
  norm_num [collide, collideFaceAxis, faceList, listToPos, normalize, pyRound, FACES,
    worldStone, range_two, PLAYER_HEIGHT]

/-- C2 (counterexample): ShownSet ⊆ domain(World) is not preserved by
`remove_block` in deferred mode: from the consistent one-block state
`MStone` (block shown and present), a deferred remove deletes the block
from the world but leaves it in ShownSet. -/
theorem claim_C2_counterexample :
    ShownInv MStone ∧ ¬ ShownInv (remove_block MStone (0, 0, 0) false) := by
  constructor
  · intro r hr
    exact hr
  · intro hinv
    have h1 : ((remove_block MStone (0, 0, 0) false).shown (0, 0, 0)).isSome = true := by decide
    have h2 := hinv (0, 0, 0) h1
    have h3 : ((remove_block MStone (0, 0, 0) false).world (0, 0, 0)).isSome = false := by decide
    rw [h2] at h3
    simp at h3

/-- C2 (amended): ShownSet ⊆ domain(World) is preserved by every world
operation except `remove_block` in deferred mode: add (both modes),
immediate remove, show and hide (both modes), sector show/hide, budgeted
queue draining and full queue draining. -/
theorem claim_C2 (M : Model) (h : ShownInv M) :
    (∀ (p : Pos) (m : Material) (b : Bool), ShownInv (add_block M p m b)) ∧
    (∀ p : Pos, ShownInv (remove_block M p true)) ∧
    (∀ (p : Pos) (b : Bool), ShownInv (show_block M p b)) ∧
    (∀ (p : Pos) (b : Bool), ShownInv (hide_block M p b)) ∧
    (∀ s : Sector, ShownInv (show_sector M s)) ∧
    (∀ s : Sector, ShownInv (hide_sector M s)) ∧
    (∀ k : ℕ, ShownInv (drainK M k)) ∧
    ShownInv (process_entire_queue M) :=
  ⟨fun p m b => shownInv_add_block M p m b h,
   fun p => shownInv_remove_block M p h,
   fun p b => shownInv_show_block M p b h,
   fun p b => shownInv_hide_block M p b h,
   fun s => shownInv_show_sector M s h,
   fun s => shownInv_hide_sector M s h,
   fun k => shownInv_drainK M k h,
   shownInv_process_entire_queue M h⟩

/-- C2 (witness): the amended preservation theorem applied to the
concrete consistent state `MStone` and an immediate add. -/
theorem claim_C2_witness : ShownInv (add_block MStone (0, 0, 0) BRICK true) :=
  (claim_C2 MStone (fun _ hr => hr)).1 (0, 0, 0) BRICK true

/-- C3 (counterexample): add-then-remove at the origin, from the state
`MGap` whose single block `(1,0,0)` is present but not shown, leaves that
block in ShownSet (the add's neighbor check shows it, the remove's does
not unshow it), so ShownSet is not restored. -/
theorem claim_C3_counterexample :
    ((remove_block (add_block MGap (0, 0, 0) BRICK true) (0, 0, 0) true).shown
        (1, 0, 0)).isSome = true ∧
    (MGap.shown (1, 0, 0)).isSome = false := by decide

/-- C3 (amended): an immediate add followed by an immediate remove of the
same position restores World, SectorIndex and ShownSet, provided the
position was free (absent from World, ShownSet and its sector bucket) and
every in-world neighbor's shown entry agrees with the world (which, the
cell being empty, means every in-world neighbor is shown). -/
theorem claim_C3 (M : Model) (p : Pos) (m : Material)
    (hW : M.world p = none) (hS : M.shown p = none)
    (hB : p ∉ M.sectors (sectorizeP p))
    (hN : ∀ f ∈ FACES, (M.world (padd p f)).isSome = true →
      M.shown (padd p f) = M.world (padd p f)) :
    (remove_block (add_block M p m true) p true).world = M.world ∧
    (remove_block (add_block M p m true) p true).sectors = M.sectors ∧
    (remove_block (add_block M p m true) p true).shown = M.shown := by
  have hAworld : (add_block M p m true).world = fupd M.world p (some m) :=
    add_block_world M p m true
  have hAp : (add_block M p m true).world p = some m := by
    rw [hAworld]
    exact fupd_same _ _ _
  have hAsect : (add_block M p m true).sectors =
      fupd M.sectors (sectorizeP p) (M.sectors (sectorizeP p) ++ [p]) := by
    rw [add_block_sectors]
    simp [hW]
  have hw4 : fupd (add_block M p m true).world p none = M.world := by
    rw [hAworld, fupd_fupd]
    exact fupd_self _ _ _ hW
  refine ⟨?_, ?_, ?_⟩
  · rw [remove_block_world _ _ _ _ hAp]
    exact hw4
  · rw [remove_block_sectors _ _ _ _ hAp, hAsect, fupd_same,
      List.erase_append_right _ hB, List.erase_cons_head, List.append_nil, fupd_fupd]
    exact fupd_self _ _ _ rfl
  · funext r
    rw [remove_block_shown_imm _ _ _ hAp r, hw4]
    by_cases hrn : r ∈ FACES.map (padd p)
    · rw [if_pos hrn]
      obtain ⟨f, hf, rfl⟩ := List.mem_map.mp hrn
      rw [add_block_shown_fresh M p m hW, if_pos hrn]
      exact visShown_restore M.world m p f hf hW (M.shown (padd p f)) (hN f hf)
    · rw [if_neg hrn]
      by_cases hrp : r = p
      · subst hrp
        rw [if_pos rfl, hS]
      · rw [if_neg hrp, add_block_shown_fresh M p m hW, if_neg hrn, if_neg hrp]

/-- C3 (witness): the amended round-trip theorem applied to the empty
state at the origin. -/
theorem claim_C3_witness :
    (remove_block (add_block MEmpty (0, 0, 0) BRICK true) (0, 0, 0) true).world =
        MEmpty.world ∧
    (remove_block (add_block MEmpty (0, 0, 0) BRICK true) (0, 0, 0) true).sectors =
        MEmpty.sectors ∧
    (remove_block (add_block MEmpty (0, 0, 0) BRICK true) (0, 0, 0) true).shown =
        MEmpty.shown :=
  claim_C3 MEmpty (0, 0, 0) BRICK rfl rfl (by decide) (by decide)

/-- C4 (counterexample): a deferred add enqueues the backend mesh build
without recording the block in ShownSet, so after draining the queue the
block is rendered but not shown; removing it then leaves its mesh in
RenderedSet, contradicting the claim that `remove` always clears
RenderedSet. -/
theorem claim_C4_counterexample :
    ((process_entire_queue (add_block MEmpty (0, 0, 0) BRICK false)).world (0, 0, 0)).isSome
        = true ∧
    (remove_block (process_entire_queue (add_block MEmpty (0, 0, 0) BRICK false)) (0, 0, 0)
        true).world (0, 0, 0) = none ∧
    (remove_block (process_entire_queue (add_block MEmpty (0, 0, 0) BRICK false)) (0, 0, 0)
        true).rendered (0, 0, 0) = true := by decide

/-- C4 (amended): after an immediate `remove_block` of a present position
`p`, `p` is absent from World, from its sector bucket (provided the
bucket listed it at most once), and from ShownSet; it is absent from
RenderedSet provided it was not rendered-without-being-shown (deferred
adds create such states, and there the mesh survives). -/
theorem claim_C4 (M : Model) (p : Pos) (t : Material) (hw : M.world p = some t)
    (hcount : (M.sectors (sectorizeP p)).count p ≤ 1)
    (hrend : M.rendered p = true → (M.shown p).isSome = true) :
    (remove_block M p true).world p = none ∧
    p ∉ (remove_block M p true).sectors (sectorizeP p) ∧
    (remove_block M p true).shown p = none ∧
    (remove_block M p true).rendered p = false := by
  refine ⟨?_, ?_, ?_, ?_⟩
  · rw [remove_block_world _ _ _ _ hw]
    exact fupd_same _ _ _
  · rw [remove_block_sectors _ _ _ _ hw, fupd_same]
    intro hmem
    have h1 := List.count_pos_iff.mpr hmem
    rw [List.count_erase_self] at h1
    omega
  · rw [remove_block_shown_imm _ _ _ hw p, if_neg (self_not_mem_nbrs p), if_pos rfl]
  · unfold remove_block
    simp only [hw, eq_self_iff_true, if_true]
    rw [check_neighbors_rendered_self]
    by_cases hs : (M.shown p).isSome
    · rw [if_pos hs, hide_block_rendered_true]
      exact fupd_same _ _ _
    · rw [if_neg hs]
      show M.rendered p = false
      cases hr : M.rendered p
      · rfl
      · exact absurd (hrend hr) (by simpa using hs)

/-- C4 (witness): the amended removal theorem applied to the consistent
one-block state `MStone`. -/
theorem claim_C4_witness :
    (remove_block MStone (0, 0, 0) true).world (0, 0, 0) = none ∧
    (0, 0, 0) ∉ (remove_block MStone (0, 0, 0) true).sectors (sectorizeP (0, 0, 0)) ∧
    (remove_block MStone (0, 0, 0) true).shown (0, 0, 0) = none ∧
    (remove_block MStone (0, 0, 0) true).rendered (0, 0, 0) = false :=
  claim_C4 MStone (0, 0, 0) STONE rfl (by rw [sectorizeP_eq]; decide) (by decide)

/-- C5: the sectors shown by `change_sectors` are exactly those inside
the current disk and outside the previous one, the hidden sectors exactly
the reverse, where disk membership is characterized by offsets `dx`, `dz`
in `-4 .. 4` on the `y = 0` layer with squared-distance cutoff
`(4+1)^2`; a `None` previous sector contributes an empty disk, so the
first call shows the whole current disk and hides nothing. -/
theorem claim_C5 (b a s : Sector) (M : Model) :
    (s ∈ change_show (some b) (some a) ↔ specInDisk a s ∧ ¬ specInDisk b s) ∧
    (s ∈ change_hide (some b) (some a) ↔ specInDisk b s ∧ ¬ specInDisk a s) ∧
    (s ∈ change_show none (some a) ↔ specInDisk a s) ∧
    change_hide none (some a) = [] ∧
    change_sectors M (some b) (some a) =
      (change_hide (some b) (some a)).foldl hide_sector
        ((change_show (some b) (some a)).foldl show_sector M) :=
  ⟨mem_change_show_some b a s, mem_change_hide_some b a s, mem_change_show_none a s,
   change_hide_none _, rfl⟩

/-- C6: with World holding exactly a stone block at the origin,
`hit_test` from `(0,0,5)` along `(0,0,-1)` with the default range returns
the hit block `(0,0,0)` paired with the previously sampled block
`(0,0,1)`; and over an empty world the march always returns
`(none, none)`. -/
theorem claim_C6 :
    hit_test worldStone (0, 0, 5) (0, 0, -1) 8 = (some (0, 0, 0), some (0, 0, 1)) ∧
    ∀ (position vector : ℚ × ℚ × ℚ) (md : ℕ),
      hit_test (fun _ => none) position vector md = (none, none) := by
  constructor
  · show hit_testLoop worldStone 64 (0, 0, 5) (0, 0, -1) none =
      (some (0, 0, 0), some (0, 0, 1))
    calc hit_testLoop worldStone 64 (0, 0, 5) (0, 0, -1) none
      _ = hit_testLoop worldStone 63 (0, 0, (39 : ℚ) / 8) (0, 0, -1) (some (0, 0, 5)) :=
        hit_testLoop_miss (by norm_num [normalize, pyRound]) (Or.inr (by norm_num [worldStone])) (by norm_num) (by norm_num) (by norm_num)
      _ = hit_testLoop worldStone 62 (0, 0, (19 : ℚ) / 4) (0, 0, -1) (some (0, 0, 5)) :=
        hit_testLoop_miss (by norm_num [normalize, pyRound]) (Or.inr (by norm_num [worldStone])) (by norm_num) (by norm_num) (by norm_num)
      _ = hit_testLoop worldStone 61 (0, 0, (37 : ℚ) / 8) (0, 0, -1) (some (0, 0, 5)) :=
        hit_testLoop_miss (by norm_num [normalize, pyRound]) (Or.inr (by norm_num [worldStone])) (by norm_num) (by norm_num) (by norm_num)
      _ = hit_testLoop worldStone 60 (0, 0, (9 : ℚ) / 2) (0, 0, -1) (some (0, 0, 5)) :=
        hit_testLoop_miss (by norm_num [normalize, pyRound]) (Or.inr (by norm_num [worldStone])) (by norm_num) (by norm_num) (by norm_num)
      _ = hit_testLoop worldStone 59 (0, 0, (35 : ℚ) / 8) (0, 0, -1) (some (0, 0, 4)) :=
        hit_testLoop_miss (by norm_num [normalize, pyRound]) (Or.inr (by norm_num [worldStone])) (by norm_num) (by norm_num) (by norm_num)
      _ = hit_testLoop worldStone 58 (0, 0, (17 : ℚ) / 4) (0, 0, -1) (some (0, 0, 4)) :=
        hit_testLoop_miss (by norm_num [normalize, pyRound]) (Or.inr (by norm_num [worldStone])) (by norm_num) (by norm_num) (by norm_num)
      _ = hit_testLoop worldStone 57 (0, 0, (33 : ℚ) / 8) (0, 0, -1) (some (0, 0, 4)) :=
        hit_testLoop_miss (by norm_num [normalize, pyRound]) (Or.inr (by norm_num [worldStone])) (by norm_num) (by norm_num) (by norm_num)
      _ = hit_testLoop worldStone 56 (0, 0, (4 : ℚ) / 1) (0, 0, -1) (some (0, 0, 4)) :=
        hit_testLoop_miss (by norm_num [normalize, pyRound]) (Or.inr (by norm_num [worldStone])) (by norm_num) (by norm_num) (by norm_num)
      _ = hit_testLoop worldStone 55 (0, 0, (31 : ℚ) / 8) (0, 0, -1) (some (0, 0, 4)) :=
        hit_testLoop_miss (by norm_num [normalize, pyRound]) (Or.inr (by norm_num [worldStone])) (by norm_num) (by norm_num) (by norm_num)
      _ = hit_testLoop worldStone 54 (0, 0, (15 : ℚ) / 4) (0, 0, -1) (some (0, 0, 4)) :=
        hit_testLoop_miss (by norm_num [normalize, pyRound]) (Or.inr (by norm_num [worldStone])) (by norm_num) (by norm_num) (by norm_num)
      _ = hit_testLoop worldStone 53 (0, 0, (29 : ℚ) / 8) (0, 0, -1) (some (0, 0, 4)) :=
        hit_testLoop_miss (by norm_num [normalize, pyRound]) (Or.inr (by norm_num [worldStone])) (by norm_num) (by norm_num) (by norm_num)
      _ = hit_testLoop worldStone 52 (0, 0, (7 : ℚ) / 2) (0, 0, -1) (some (0, 0, 4)) :=
        hit_testLoop_miss (by norm_num [normalize, pyRound]) (Or.inr (by norm_num [worldStone])) (by norm_num) (by norm_num) (by norm_num)
      _ = hit_testLoop worldStone 51 (0, 0, (27 : ℚ) / 8) (0, 0, -1) (some (0, 0, 4)) :=
        hit_testLoop_miss (by norm_num [normalize, pyRound]) (Or.inr (by norm_num [worldStone])) (by norm_num) (by norm_num) (by norm_num)
      _ = hit_testLoop worldStone 50 (0, 0, (13 : ℚ) / 4) (0, 0, -1) (some (0, 0, 3)) :=
        hit_testLoop_miss (by norm_num [normalize, pyRound]) (Or.inr (by norm_num [worldStone])) (by norm_num) (by norm_num) (by norm_num)
      _ = hit_testLoop worldStone 49 (0, 0, (25 : ℚ) / 8) (0, 0, -1) (some (0, 0, 3)) :=
        hit_testLoop_miss (by norm_num [normalize, pyRound]) (Or.inr (by norm_num [worldStone])) (by norm_num) (by norm_num) (by norm_num)
      _ = hit_testLoop worldStone 48 (0, 0, (3 : ℚ) / 1) (0, 0, -1) (some (0, 0, 3)) :=
        hit_testLoop_miss (by norm_num [normalize, pyRound]) (Or.inr (by norm_num [worldStone])) (by norm_num) (by norm_num) (by norm_num)
      _ = hit_testLoop worldStone 47 (0, 0, (23 : ℚ) / 8) (0, 0, -1) (some (0, 0, 3)) :=
        hit_testLoop_miss (by norm_num [normalize, pyRound]) (Or.inr (by norm_num [worldStone])) (by norm_num) (by norm_num) (by norm_num)
      _ = hit_testLoop worldStone 46 (0, 0, (11 : ℚ) / 4) (0, 0, -1) (some (0, 0, 3)) :=
        hit_testLoop_miss (by norm_num [normalize, pyRound]) (Or.inr (by norm_num [worldStone])) (by norm_num) (by norm_num) (by norm_num)
      _ = hit_testLoop worldStone 45 (0, 0, (21 : ℚ) / 8) (0, 0, -1) (some (0, 0, 3)) :=
        hit_testLoop_miss (by norm_num [normalize, pyRound]) (Or.inr (by norm_num [worldStone])) (by norm_num) (by norm_num) (by norm_num)
      _ = hit_testLoop worldStone 44 (0, 0, (5 : ℚ) / 2) (0, 0, -1) (some (0, 0, 3)) :=
        hit_testLoop_miss (by norm_num [normalize, pyRound]) (Or.inr (by norm_num [worldStone])) (by norm_num) (by norm_num) (by norm_num)
      _ = hit_testLoop worldStone 43 (0, 0, (19 : ℚ) / 8) (0, 0, -1) (some (0, 0, 2)) :=
        hit_testLoop_miss (by norm_num [normalize, pyRound]) (Or.inr (by norm_num [worldStone])) (by norm_num) (by norm_num) (by norm_num)
      _ = hit_testLoop worldStone 42 (0, 0, (9 : ℚ) / 4) (0, 0, -1) (some (0, 0, 2)) :=
        hit_testLoop_miss (by norm_num [normalize, pyRound]) (Or.inr (by norm_num [worldStone])) (by norm_num) (by norm_num) (by norm_num)
      _ = hit_testLoop worldStone 41 (0, 0, (17 : ℚ) / 8) (0, 0, -1) (some (0, 0, 2)) :=
        hit_testLoop_miss (by norm_num [normalize, pyRound]) (Or.inr (by norm_num [worldStone])) (by norm_num) (by norm_num) (by norm_num)
      _ = hit_testLoop worldStone 40 (0, 0, (2 : ℚ) / 1) (0, 0, -1) (some (0, 0, 2)) :=
        hit_testLoop_miss (by norm_num [normalize, pyRound]) (Or.inr (by norm_num [worldStone])) (by norm_num) (by norm_num) (by norm_num)
      _ = hit_testLoop worldStone 39 (0, 0, (15 : ℚ) / 8) (0, 0, -1) (some (0, 0, 2)) :=
        hit_testLoop_miss (by norm_num [normalize, pyRound]) (Or.inr (by norm_num [worldStone])) (by norm_num) (by norm_num) (by norm_num)
      _ = hit_testLoop worldStone 38 (0, 0, (7 : ℚ) / 4) (0, 0, -1) (some (0, 0, 2)) :=
        hit_testLoop_miss (by norm_num [normalize, pyRound]) (Or.inr (by norm_num [worldStone])) (by norm_num) (by norm_num) (by norm_num)
      _ = hit_testLoop worldStone 37 (0, 0, (13 : ℚ) / 8) (0, 0, -1) (some (0, 0, 2)) :=
        hit_testLoop_miss (by norm_num [normalize, pyRound]) (Or.inr (by norm_num [worldStone])) (by norm_num) (by norm_num) (by norm_num)
      _ = hit_testLoop worldStone 36 (0, 0, (3 : ℚ) / 2) (0, 0, -1) (some (0, 0, 2)) :=
        hit_testLoop_miss (by norm_num [normalize, pyRound]) (Or.inr (by norm_num [worldStone])) (by norm_num) (by norm_num) (by norm_num)
      _ = hit_testLoop worldStone 35 (0, 0, (11 : ℚ) / 8) (0, 0, -1) (some (0, 0, 2)) :=
        hit_testLoop_miss (by norm_num [normalize, pyRound]) (Or.inr (by norm_num [worldStone])) (by norm_num) (by norm_num) (by norm_num)
      _ = hit_testLoop worldStone 34 (0, 0, (5 : ℚ) / 4) (0, 0, -1) (some (0, 0, 1)) :=
        hit_testLoop_miss (by norm_num [normalize, pyRound]) (Or.inr (by norm_num [worldStone])) (by norm_num) (by norm_num) (by norm_num)
      _ = hit_testLoop worldStone 33 (0, 0, (9 : ℚ) / 8) (0, 0, -1) (some (0, 0, 1)) :=
        hit_testLoop_miss (by norm_num [normalize, pyRound]) (Or.inr (by norm_num [worldStone])) (by norm_num) (by norm_num) (by norm_num)
      _ = hit_testLoop worldStone 32 (0, 0, (1 : ℚ) / 1) (0, 0, -1) (some (0, 0, 1)) :=
        hit_testLoop_miss (by norm_num [normalize, pyRound]) (Or.inr (by norm_num [worldStone])) (by norm_num) (by norm_num) (by norm_num)
      _ = hit_testLoop worldStone 31 (0, 0, (7 : ℚ) / 8) (0, 0, -1) (some (0, 0, 1)) :=
        hit_testLoop_miss (by norm_num [normalize, pyRound]) (Or.inr (by norm_num [worldStone])) (by norm_num) (by norm_num) (by norm_num)
      _ = hit_testLoop worldStone 30 (0, 0, (3 : ℚ) / 4) (0, 0, -1) (some (0, 0, 1)) :=
        hit_testLoop_miss (by norm_num [normalize, pyRound]) (Or.inr (by norm_num [worldStone])) (by norm_num) (by norm_num) (by norm_num)
      _ = hit_testLoop worldStone 29 (0, 0, (5 : ℚ) / 8) (0, 0, -1) (some (0, 0, 1)) :=
        hit_testLoop_miss (by norm_num [normalize, pyRound]) (Or.inr (by norm_num [worldStone])) (by norm_num) (by norm_num) (by norm_num)
      _ = hit_testLoop worldStone 28 (0, 0, (1 : ℚ) / 2) (0, 0, -1) (some (0, 0, 1)) :=
        hit_testLoop_miss (by norm_num [normalize, pyRound]) (Or.inr (by norm_num [worldStone])) (by norm_num) (by norm_num) (by norm_num)
      _ = ((some ((0 : ℤ), (0 : ℤ), (0 : ℤ)) : Option Pos), (some ((0 : ℤ), (0 : ℤ), (1 : ℤ)) : Option Pos)) :=
        hit_testLoop_hit (by norm_num [normalize, pyRound]) (by decide) (by decide)
  · intro position vector md
    exact hit_testLoop_empty _ _ _ _

/-- C7: a block is exposed exactly when one of its six axis-aligned
neighbors is absent from the world; and immediately adding a block at
`(1,0,0)` next to the shown origin block of `MPocket` (whose only exposed
face pointed there) removes the origin from ShownSet. -/
theorem claim_C7 :
    (∀ (w : Pos → Option Material) (p : Pos),
      exposedB w p = true ↔
        (w (p.1, p.2.1 + 1, p.2.2) = none ∨ w (p.1, p.2.1 - 1, p.2.2) = none ∨
         w (p.1 - 1, p.2.1, p.2.2) = none ∨ w (p.1 + 1, p.2.1, p.2.2) = none ∨
         w (p.1, p.2.1, p.2.2 + 1) = none ∨ w (p.1, p.2.1, p.2.2 - 1) = none)) ∧
    (MPocket.shown (0, 0, 0)).isSome = true ∧
    (add_block MPocket (1, 0, 0) BRICK true).shown (0, 0, 0) = none := by
  refine ⟨?_, by decide, by decide⟩
  intro w p
  unfold exposedB FACES
  simp [List.any_eq_true, padd, Option.isNone_iff_eq_none, sub_eq_add_neg]

/-- C8: after `add_block p m` (in either mode), the world maps `p` to `m`
and the sector bucket of `sectorize p` lists `p` exactly once — including
when `p` was already occupied, the prior entry being removed first —
provided the bucket was in sync at `p` beforehand (`p` listed once if
occupied, not at all if free). -/
theorem claim_C8 (M : Model) (p : Pos) (m : Material) (b : Bool)
    (hsync : (M.sectors (sectorizeP p)).count p = if (M.world p).isSome then 1 else 0) :
    (add_block M p m b).world p = some m ∧
    ((add_block M p m b).sectors (sectorizeP p)).count p = 1 := by
  refine ⟨?_, ?_⟩
  · rw [add_block_world]
    exact fupd_same _ _ _
  · rw [add_block_sectors, fupd_same, List.count_append]
    by_cases hw : (M.world p).isSome
    · rw [if_pos hw] at hsync ⊢
      rw [List.count_erase_self, hsync]
      simp
    · rw [if_neg hw] at hsync ⊢
      rw [hsync]
      simp

/-- C8 (witness): adding a brick to the empty state at the origin. -/
theorem claim_C8_witness :
    (add_block MEmpty (0, 0, 0) BRICK true).world (0, 0, 0) = some BRICK ∧
    ((add_block MEmpty (0, 0, 0) BRICK true).sectors (sectorizeP (0, 0, 0))).count (0, 0, 0)
      = 1 :=
  claim_C8 MEmpty (0, 0, 0) BRICK true rfl

/-- C9: removing the same position twice (with any immediate/deferred
flags) equals removing it once: the second call finds the position absent
from World and returns the state — World, SectorIndex, ShownSet, queue
and meshes — entirely unchanged, raising no error. -/
theorem claim_C9 (M : Model) (p : Pos) (b b2 : Bool) :
    remove_block (remove_block M p b) p b2 = remove_block M p b := by
  rcases h : M.world p with _ | t
  · rw [remove_block_of_none _ _ _ h]
    exact remove_block_of_none _ _ _ h
  · exact remove_block_of_none _ _ _
      (by rw [remove_block_world _ _ _ _ h]; exact fupd_same _ _ _)

/-- C10: `normalize` rounds half-to-even on each coordinate: at an exact
half `n + 1/2` the result is `n` for even `n` and `n + 1` for odd `n`;
concretely `normalize (0.5, 1.5, 2.5) = (0, 2, 2)`, observable through
`sectorize` as well: `sectorize (15.5, 0, 16.5) = (1, 0, 1)`. -/
theorem claim_C10 :
    (∀ n : ℤ, pyRound ((n : ℚ) + 1 / 2) = if Even n then n else n + 1) ∧
    normalize (1 / 2, 3 / 2, 5 / 2) = (0, 2, 2) ∧
    sectorize (31 / 2, 0, 33 / 2) = (1, 0, 1) := by
  refine ⟨?_, by norm_num [normalize, pyRound], ?_⟩
  · intro n
    have hfl : ⌊(n : ℚ) + 1 / 2⌋ = n := by
      rw [add_comm, Int.floor_add_int]
      norm_num
    simp only [pyRound, hfl]
    have hr : (n : ℚ) + 1 / 2 - (n : ℚ) = 1 / 2 := by ring
    rw [hr, if_neg (by norm_num), if_neg (by norm_num)]
    by_cases hn : n % 2 = 0 <;> simp [hn, Int.even_iff]
  · have h : normalize (31 / 2, 0, 33 / 2) = (16, 0, 16) := by norm_num [normalize, pyRound]
    simp only [sectorize, h]
    decide

end Voxel
